import Mathlib

/-!
Verification of the benchmark state-graph program (`src/react_agent/graph.py`).

The handlers (`entry_node`, `sequential_node`, `parallel_node`), the router
(`should_continue`) and the state schema (`State`) are embedded directly from
the Python source.  The execution engine (super-steps, branch dispatch, merge
policy) is provided by an external library and is not part of the source tree;
it is modelled from the specification where needed (each such definition says
so in its doc comment).
-/

namespace ReactAgent

/-- The `BenchmarkMode` enum from the source: single node, sequential chain,
parallel fan-out. -/
inductive BenchmarkMode where
  | SINGLE_NODE
  | SEQUENTIAL_NODES
  | PARALLEL_NODES
deriving DecidableEq, Repr

/-- The string value of each enum member, as declared in the source. -/
def BenchmarkMode.value : BenchmarkMode → String
  | .SINGLE_NODE => "single"
  | .SEQUENTIAL_NODES => "sequential"
  | .PARALLEL_NODES => "parallel"

/-- The `BenchmarkMode(raw)` lookup: the enum member whose value equals `raw`,
or `none` (Python raises `ValueError`, the spec's `InvalidModeError`). -/
def BenchmarkMode.ofString : String → Option BenchmarkMode
  | "single" => some .SINGLE_NODE
  | "sequential" => some .SEQUENTIAL_NODES
  | "parallel" => some .PARALLEL_NODES
  | _ => none

/-- The `Message` TypedDict from the source: an id and a content string. -/
structure Message where
  id : Nat
  content : String
deriving DecidableEq, Repr

/-- The `State` dataclass from the source (post-entry: `mode` holds the resolved
enum).  `messages` carries the `add` (append) reducer. -/
structure State where
  counter : Nat
  delay : Nat
  data_size : Nat
  expand : Nat
  mode : BenchmarkMode
  messages : List Message
deriving DecidableEq, Repr

/-- The dataclass field defaults from the source
(`counter=0, delay=0, data_size=1000, expand=50, mode=SINGLE_NODE,
messages=[]`). -/
def State.mkDefault : State :=
  { counter := 0
    delay := 0
    data_size := 1000
    expand := 50
    mode := .SINGLE_NODE
    messages := [] }

/-- The function `create_large_data(state)`: the string `"a" * state.data_size`. -/
def create_large_data (state : State) : String :=
  String.mk (List.replicate state.data_size 'a')

/-- Error taxonomy relevant to the embedded code: the entry node's
unrecognized-mode failure (`ValueError` from the enum constructor, called
`InvalidModeError` by the spec). -/
inductive Err where
  | InvalidModeError
deriving DecidableEq, Repr

/-- The mode resolution performed by `entry_node` (line 65 of the source):
`BenchmarkMode(state.mode) if state.mode else BenchmarkMode.SINGLE_NODE`.
A falsy raw value (the empty string) selects `SINGLE_NODE` without
consulting the enum constructor; otherwise the constructor either resolves
the string or fails. -/
def resolveMode (raw : String) : Except Err BenchmarkMode :=
  if raw = "" then .ok .SINGLE_NODE
  else
    match BenchmarkMode.ofString raw with
    | some m => .ok m
    | none => .error .InvalidModeError

/-- Caller-supplied run inputs (spec section 6): raw mode string, delay,
data size, fan-out/loop bound.  The remaining `State` fields start from
their dataclass defaults (`counter = 0`, `messages = []`). -/
structure Input where
  modeRaw : String
  delay : Nat
  data_size : Nat
  expand : Nat
deriving DecidableEq, Repr

/-- The handler `entry_node` applied to the initial state built from the caller inputs,
with its partial update (`counter`, `mode` overwritten, one message appended
to the initially empty log) already merged. -/
def entryStep (i : Input) : Except Err State :=
  match resolveMode i.modeRaw with
  | .error e => .error e
  | .ok m =>
      .ok { counter := 0
            delay := i.delay
            data_size := i.data_size
            expand := i.expand
            mode := m
            messages := [{ id := 0, content := "Hello from entry node!" }] }

/-- The handler `sequential_node`: increments the counter and emits one message tagged
with the new counter value, embedding the synthetic payload. -/
def sequential_node (state : State) : Nat × List Message :=
  let c := state.counter + 1
  (c, [{ id := c
         content := "Hello from sequential node " ++ toString c ++ "! Data: "
           ++ create_large_data state }])

/-- The handler `parallel_node`: emits one message tagged with the `parallel_id` carried
by the unit's payload overlay, embedding the synthetic payload.  It never
reads the shared counter. -/
def parallel_node (state : State) (parallel_id : Nat) : List Message :=
  [{ id := parallel_id
     content := "Hello from parallel node " ++ toString parallel_id ++ "! Data: "
       ++ create_large_data state }]

/-- The routing decision `RouterDecision`: terminal (`"__end__"`), the sequential node's name, or
a list of `Send("parallel_node", {"parallel_id": k})` directives carrying
the branch ids. -/
inductive RouterDecision where
  | terminal
  | nextSequential
  | branchSet (ids : List Nat)
deriving DecidableEq, Repr

/-- The router `should_continue`: the conditional router from the source.  Parallel fan-out
produces one directive per id in `range(1, expand + 1)`. -/
def should_continue (state : State) : RouterDecision :=
  match state.mode with
  | .SINGLE_NODE => .terminal
  | .SEQUENTIAL_NODES =>
      if state.counter < state.expand then .nextSequential else .terminal
  | .PARALLEL_NODES => .branchSet (List.range' 1 state.expand)

/-- Merge of a `sequential_node` super-step into the snapshot: `counter` is
overwritten, `messages` appended (the `add` reducer). -/
def applySeqStep (s : State) : State :=
  let u := sequential_node s
  { s with counter := u.1, messages := s.messages ++ u.2 }

/-- Modelled from the spec: the Branch Dispatcher and merge phase for one
parallel super-step, absent from the source tree (the engine is an external
library).  Each directive spawns a unit running `parallel_node` on the shared
snapshot overlaid with its own `parallel_id`; the `append` reducer
concatenates contributions in ascending unit index (branch id order)
regardless of completion time. -/
def parallelStep (s : State) (ids : List Nat) : State :=
  { s with messages := s.messages ++ (ids.map (fun k => parallel_node s k)).flatten }

theorem should_continue_nextSequential {s : State}
    (h : should_continue s = .nextSequential) :
    s.mode = .SEQUENTIAL_NODES ∧ s.counter < s.expand := by
  unfold should_continue at h
  cases hm : s.mode <;> rw [hm] at h <;> simp at h
  exact ⟨rfl, h⟩

/-- Modelled from the spec: the Engine's super-step loop, absent from the
source tree.  After the entry merge it repeatedly invokes the router on the
merged snapshot: a sequential directive runs `sequential_node` and loops, a
branch set runs one parallel super-step whose units' only outgoing edge is
terminal, and `terminal` halts. -/
def engineLoop (s : State) : State :=
  match h : should_continue s with
  | .nextSequential => engineLoop (applySeqStep s)
  | .terminal => s
  | .branchSet ids => parallelStep s ids
termination_by s.expand - s.counter
decreasing_by
  obtain ⟨_, hlt⟩ := should_continue_nextSequential h
  simp only [applySeqStep, sequential_node]
  omega

/-- Modelled from the spec: the sequence of merged snapshots after each
super-step of the run (same recursion as `engineLoop`, recording every
intermediate snapshot). -/
def engineTrace (s : State) : List State :=
  match h : should_continue s with
  | .nextSequential => s :: engineTrace (applySeqStep s)
  | .terminal => [s]
  | .branchSet ids => [s, parallelStep s ids]
termination_by s.expand - s.counter
decreasing_by
  obtain ⟨_, hlt⟩ := should_continue_nextSequential h
  simp only [applySeqStep, sequential_node]
  omega

/-- A whole run: entry super-step, then the engine loop until terminal. -/
def run (i : Input) : Except Err State :=
  (entryStep i).map engineLoop

/-- The synthetic payload as a function of the data size alone. -/
def payload (ds : Nat) : String :=
  String.mk (List.replicate ds 'a')

/-- The message emitted by the sequential node at counter value `k`. -/
def seqMessage (ds k : Nat) : Message :=
  { id := k
    content := "Hello from sequential node " ++ toString k ++ "! Data: " ++ payload ds }

/-- The message emitted by the parallel node for branch id `k`. -/
def parMessage (ds k : Nat) : Message :=
  { id := k
    content := "Hello from parallel node " ++ toString k ++ "! Data: " ++ payload ds }

theorem create_large_data_eq (s : State) : create_large_data s = payload s.data_size := rfl

theorem payload_length (ds : Nat) : (payload ds).length = ds := by
  simp [payload, String.length]

theorem flatten_map_singleton {α β : Type} (l : List α) (f : α → β) :
    (l.map fun k => [f k]).flatten = l.map f := by
  induction l with
  | nil => rfl
  | cons a t ih => simp [ih]

theorem engineLoop_terminal {s : State} (h : should_continue s = .terminal) :
    engineLoop s = s := by
  rw [engineLoop]
  split <;> simp_all

theorem engineLoop_next {s : State} (h : should_continue s = .nextSequential) :
    engineLoop s = engineLoop (applySeqStep s) := by
  rw [engineLoop]
  split <;> simp_all

theorem engineLoop_branch {s : State} {ids : List Nat}
    (h : should_continue s = .branchSet ids) :
    engineLoop s = parallelStep s ids := by
  rw [engineLoop]
  split <;> simp_all

theorem engineTrace_terminal {s : State} (h : should_continue s = .terminal) :
    engineTrace s = [s] := by
  rw [engineTrace]
  split <;> simp_all

theorem engineTrace_next {s : State} (h : should_continue s = .nextSequential) :
    engineTrace s = s :: engineTrace (applySeqStep s) := by
  rw [engineTrace]
  split <;> simp_all

theorem engineTrace_branch {s : State} {ids : List Nat}
    (h : should_continue s = .branchSet ids) :
    engineTrace s = [s, parallelStep s ids] := by
  rw [engineTrace]
  split <;> simp_all

theorem applySeqStep_eq (s : State) :
    applySeqStep s = { s with counter := s.counter + 1,
                              messages := s.messages ++ [seqMessage s.data_size (s.counter + 1)] } := rfl

theorem should_continue_seq_lt {s : State} (hm : s.mode = .SEQUENTIAL_NODES)
    (h : s.counter < s.expand) : should_continue s = .nextSequential := by
  simp [should_continue, hm, h]

theorem should_continue_seq_ge {s : State} (hm : s.mode = .SEQUENTIAL_NODES)
    (h : ¬ s.counter < s.expand) : should_continue s = .terminal := by
  simp [should_continue, hm, h]

theorem should_continue_parallel {s : State} (hm : s.mode = .PARALLEL_NODES) :
    should_continue s = .branchSet (List.range' 1 s.expand) := by
  simp [should_continue, hm]

/-- Closed form of the sequential loop: starting from a sequential-mode state
whose counter has not passed the bound, the loop drives the counter to the
bound and appends one message per remaining step. -/
theorem engineLoop_seq_closed :
    ∀ (n : Nat) (s : State), s.mode = .SEQUENTIAL_NODES → s.counter ≤ s.expand →
      s.expand - s.counter = n →
      engineLoop s = { s with
                       counter := s.expand
                       messages := s.messages
                         ++ (List.range' (s.counter + 1) n).map (seqMessage s.data_size) } := by
  intro n
  induction n with
  | zero =>
      intro s hm hle hn
      have hce : s.counter = s.expand := by omega
      rw [engineLoop_terminal (should_continue_seq_ge hm (by omega))]
      obtain ⟨c, d, ds, e, m, ms⟩ := s
      simp only at hce
      subst hce
      simp
  | succ n ih =>
      intro s hm hle hn
      have hlt : s.counter < s.expand := by omega
      rw [engineLoop_next (should_continue_seq_lt hm hlt), applySeqStep_eq]
      rw [ih _ (by simpa using hm) (by simp; omega) (by simp; omega)]
      simp [List.range'_succ]

/-- Closed form of a sequential-mode run. -/
theorem run_sequential (d ds n : Nat) :
    run { modeRaw := "sequential", delay := d, data_size := ds, expand := n } = .ok
      { counter := n, delay := d, data_size := ds, expand := n, mode := .SEQUENTIAL_NODES,
        messages := { id := 0, content := "Hello from entry node!" }
          :: (List.range' 1 n).map (seqMessage ds) } := by
  have h := engineLoop_seq_closed n
    { counter := 0, delay := d, data_size := ds, expand := n, mode := .SEQUENTIAL_NODES,
      messages := [{ id := 0, content := "Hello from entry node!" }] } rfl (by simp) (by simp)
  unfold run
  rw [show entryStep { modeRaw := "sequential", delay := d, data_size := ds, expand := n }
      = Except.ok { counter := 0, delay := d, data_size := ds, expand := n,
                    mode := .SEQUENTIAL_NODES,
                    messages := [{ id := 0, content := "Hello from entry node!" }] } from rfl]
  simp only [Except.map, h]
  simp

/-- Closed form of a parallel-mode run. -/
theorem run_parallel (d ds n : Nat) :
    run { modeRaw := "parallel", delay := d, data_size := ds, expand := n } = .ok
      { counter := 0, delay := d, data_size := ds, expand := n, mode := .PARALLEL_NODES,
        messages := { id := 0, content := "Hello from entry node!" }
          :: (List.range' 1 n).map (parMessage ds) } := by
  unfold run
  rw [show entryStep { modeRaw := "parallel", delay := d, data_size := ds, expand := n }
      = Except.ok { counter := 0, delay := d, data_size := ds, expand := n,
                    mode := .PARALLEL_NODES,
                    messages := [{ id := 0, content := "Hello from entry node!" }] } from rfl]
  simp only [Except.map]
  rw [engineLoop_branch (should_continue_parallel rfl)]
  unfold parallelStep
  rw [show (fun k => parallel_node
        { counter := 0, delay := d, data_size := ds, expand := n, mode := .PARALLEL_NODES,
          messages := [{ id := 0, content := "Hello from entry node!" }] } k)
      = (fun k => [parMessage ds k]) from rfl]
  rw [flatten_map_singleton]
  simp

/-- Closed form of a single-mode run. -/
theorem run_single (d ds e : Nat) :
    run { modeRaw := "single", delay := d, data_size := ds, expand := e } = .ok
      { counter := 0, delay := d, data_size := ds, expand := e, mode := .SINGLE_NODE,
        messages := [{ id := 0, content := "Hello from entry node!" }] } := by
  unfold run
  rw [show entryStep { modeRaw := "single", delay := d, data_size := ds, expand := e }
      = Except.ok { counter := 0, delay := d, data_size := ds, expand := e,
                    mode := .SINGLE_NODE,
                    messages := [{ id := 0, content := "Hello from entry node!" }] } from rfl]
  simp only [Except.map]
  rw [@engineLoop_terminal
    { counter := 0, delay := d, data_size := ds, expand := e, mode := .SINGLE_NODE,
      messages := [{ id := 0, content := "Hello from entry node!" }] } rfl]

/-- One super-step relation used to phrase the state invariants: the counter
does not decrease, the mode is unchanged, and the message log is only
appended to. -/
def StepOk (a b : State) : Prop :=
  a.counter ≤ b.counter ∧ a.mode = b.mode ∧ ∃ t, b.messages = a.messages ++ t

theorem stepOk_applySeqStep (s : State) : StepOk s (applySeqStep s) := by
  refine ⟨by simp [applySeqStep_eq], rfl, ⟨_, rfl⟩⟩

theorem stepOk_parallelStep (s : State) (ids : List Nat) :
    StepOk s (parallelStep s ids) := by
  refine ⟨le_refl _, rfl, ⟨_, rfl⟩⟩

theorem engineTrace_head (s : State) : ∃ l, engineTrace s = s :: l := by
  cases h : should_continue s with
  | terminal => exact ⟨[], engineTrace_terminal h⟩
  | nextSequential => exact ⟨_, engineTrace_next h⟩
  | branchSet ids => exact ⟨_, engineTrace_branch h⟩

theorem engineTrace_chain :
    ∀ (n : Nat) (s : State), s.expand - s.counter = n →
      List.Chain' StepOk (engineTrace s) := by
  intro n
  induction n with
  | zero =>
      intro s hn
      cases h : should_continue s with
      | terminal => rw [engineTrace_terminal h]; simp
      | nextSequential =>
          obtain ⟨_, hlt⟩ := should_continue_nextSequential h
          omega
      | branchSet ids =>
          rw [engineTrace_branch h]
          exact List.chain'_cons.mpr ⟨stepOk_parallelStep s ids, by simp⟩
  | succ n ih =>
      intro s hn
      cases h : should_continue s with
      | terminal => rw [engineTrace_terminal h]; simp
      | branchSet ids =>
          rw [engineTrace_branch h]
          exact List.chain'_cons.mpr ⟨stepOk_parallelStep s ids, by simp⟩
      | nextSequential =>
          rw [engineTrace_next h]
          obtain ⟨hm, hlt⟩ := should_continue_nextSequential h
          have htail := ih (applySeqStep s) (by simp [applySeqStep_eq]; omega)
          obtain ⟨l, hl⟩ := engineTrace_head (applySeqStep s)
          rw [hl] at htail ⊢
          exact List.chain'_cons.mpr ⟨stepOk_applySeqStep s, htail⟩

theorem entryStep_ok {i : Input} {s : State} (h : entryStep i = .ok s) :
    s.counter = 0 ∧ s.delay = i.delay ∧ s.data_size = i.data_size ∧
      s.expand = i.expand ∧
      s.messages = [{ id := 0, content := "Hello from entry node!" }] := by
  unfold entryStep at h
  cases hr : resolveMode i.modeRaw with
  | error e => rw [hr] at h; exact absurd h (by simp)
  | ok m =>
      rw [hr] at h
      injection h with h
      subst h
      exact ⟨rfl, rfl, rfl, rfl, rfl⟩

theorem should_continue_branchSet {s : State} {ids : List Nat}
    (h : should_continue s = .branchSet ids) :
    ids = List.range' 1 s.expand ∧ s.mode = .PARALLEL_NODES := by
  cases hm : s.mode with
  | SINGLE_NODE =>
      rw [show should_continue s = .terminal by simp [should_continue, hm]] at h
      exact absurd h (by simp)
  | SEQUENTIAL_NODES =>
      by_cases hc : s.counter < s.expand
      · rw [should_continue_seq_lt hm hc] at h
        exact absurd h (by simp)
      · rw [should_continue_seq_ge hm hc] at h
        exact absurd h (by simp)
  | PARALLEL_NODES =>
      rw [should_continue_parallel hm] at h
      injection h with h
      exact ⟨h.symm, rfl⟩

/-- Modelled from the spec: a parallel super-step in which the units finish in
the completion order `ord`; the engine nonetheless applies the `append` merges
in ascending unit index (branch id), i.e. it sorts the arrived contributions
by branch id before concatenating. -/
def parallelStepSched (s : State) (ord : List Nat) : State :=
  { s with messages := s.messages
      ++ (((ord.mergeSort (fun a b => decide (a ≤ b))).map (fun k => parallel_node s k)).flatten) }

/-- Modelled from the spec: the engine loop where the (unique) parallel
super-step, if reached, completes in the order `ord`. -/
def engineLoopSched (s : State) (ord : List Nat) : State :=
  match h : should_continue s with
  | .nextSequential => engineLoopSched (applySeqStep s) ord
  | .terminal => s
  | .branchSet _ => parallelStepSched s ord
termination_by s.expand - s.counter
decreasing_by
  obtain ⟨_, hlt⟩ := should_continue_nextSequential h
  simp only [applySeqStep, sequential_node]
  omega

theorem mergeSort_perm_range' (ord : List Nat) (n : Nat)
    (h : ord.Perm (List.range' 1 n)) :
    ord.mergeSort (fun a b => decide (a ≤ b)) = List.range' 1 n := by
  refine @List.eq_of_perm_of_sorted Nat (fun a b => a ≤ b) ?_ _ _
    ((List.mergeSort_perm ord _).trans h) ?_ ?_
  · exact inferInstance
  · have hs := @List.sorted_mergeSort Nat (fun a b => decide (a ≤ b))
      (fun a b c hab hbc => by simp at hab hbc ⊢; omega)
      (fun a b => by simp; omega) ord
    simpa [List.Sorted, decide_eq_true_eq] using hs
  · exact (List.pairwise_lt_range' 1 n).imp (fun h => le_of_lt h)

theorem engineLoopSched_terminal {s : State} {ord : List Nat}
    (h : should_continue s = .terminal) : engineLoopSched s ord = s := by
  rw [engineLoopSched]
  split <;> simp_all

theorem engineLoopSched_next {s : State} {ord : List Nat}
    (h : should_continue s = .nextSequential) :
    engineLoopSched s ord = engineLoopSched (applySeqStep s) ord := by
  rw [engineLoopSched]
  split <;> simp_all

theorem engineLoopSched_branch {s : State} {ord : List Nat} {ids : List Nat}
    (h : should_continue s = .branchSet ids) :
    engineLoopSched s ord = parallelStepSched s ord := by
  rw [engineLoopSched]
  split <;> simp_all

/-- Any completion order that is a permutation of the dispatched branch ids
yields the same run result as the canonical (branch-id-ordered) engine. -/
theorem engineLoopSched_eq :
    ∀ (n : Nat) (s : State) (ord : List Nat), ord.Perm (List.range' 1 s.expand) →
      s.expand - s.counter = n → engineLoopSched s ord = engineLoop s := by
  intro n
  induction n with
  | zero =>
      intro s ord hperm hn
      cases h : should_continue s with
      | terminal => rw [engineLoopSched_terminal h, engineLoop_terminal h]
      | nextSequential =>
          obtain ⟨_, hlt⟩ := should_continue_nextSequential h
          omega
      | branchSet ids =>
          obtain ⟨hids, _⟩ := should_continue_branchSet h
          rw [engineLoopSched_branch h, engineLoop_branch h, hids]
          unfold parallelStepSched parallelStep
          rw [mergeSort_perm_range' ord s.expand hperm]
  | succ n ih =>
      intro s ord hperm hn
      cases h : should_continue s with
      | terminal => rw [engineLoopSched_terminal h, engineLoop_terminal h]
      | branchSet ids =>
          obtain ⟨hids, _⟩ := should_continue_branchSet h
          rw [engineLoopSched_branch h, engineLoop_branch h, hids]
          unfold parallelStepSched parallelStep
          rw [mergeSort_perm_range' ord s.expand hperm]
      | nextSequential =>
          obtain ⟨hm, hlt⟩ := should_continue_nextSequential h
          rw [engineLoopSched_next h, engineLoop_next h]
          exact ih (applySeqStep s) ord (by simpa [applySeqStep_eq] using hperm)
            (by simp [applySeqStep_eq]; omega)

/-! ## Claim theorems -/

/-- C1: a run in parallel mode with `expand = N` terminates successfully with
exactly `N + 1` messages: the entry message (id 0) plus `N` parallel messages
whose ids form the set `{1, ..., N}` with no duplicates, logged in ascending
branch id order. -/
theorem C1_parallel_run (d ds n : Nat) :
    ∃ s, run { modeRaw := "parallel", delay := d, data_size := ds, expand := n } = .ok s ∧
      s.messages.length = n + 1 ∧
      s.messages.map Message.id = 0 :: List.range' 1 n ∧
      ((s.messages.drop 1).map Message.id).Nodup ∧
      (∀ k, k ∈ (s.messages.drop 1).map Message.id ↔ 1 ≤ k ∧ k ≤ n) ∧
      List.Sorted (· < ·) (s.messages.map Message.id) := by
  refine ⟨_, run_parallel d ds n, by simp, ?_, ?_, ?_, ?_⟩
  · simp only [List.map_cons, List.map_map]
    rw [show (Message.id ∘ fun k => parMessage ds k) = fun k => k from rfl]
    simp
  · simp only [List.drop_succ_cons, List.drop_zero, List.map_map]
    rw [show (Message.id ∘ fun k => parMessage ds k) = fun k => k from rfl]
    simpa using List.nodup_range' 1 n
  · intro k
    simp only [List.drop_succ_cons, List.drop_zero, List.map_map]
    rw [show (Message.id ∘ fun k => parMessage ds k) = fun k => k from rfl]
    simp [List.mem_range'_1]
    omega
  · simp only [List.map_cons, parMessage, List.map_map]
    rw [show (Message.id ∘ fun k => parMessage ds k) = fun k => k from rfl]
    rw [List.map_id']
    refine List.sorted_cons.mpr ⟨?_, ?_⟩
    · intro b hb
      have := List.mem_range'_1.mp hb
      omega
    · exact List.pairwise_lt_range' 1 n

/-- C2: the parallel handler emits exactly one message, whose id is the
branch id supplied via the unit's own payload overlay (independent of the
shared counter) and whose content embeds the payload of length
`data_size`. -/
theorem C2_parallel_handler (s : State) (k c : Nat) :
    parallel_node s k
      = [{ id := k,
           content := "Hello from parallel node " ++ toString k ++ "! Data: "
             ++ create_large_data s }] ∧
    (parallel_node s k).length = 1 ∧
    (parallel_node s k).map Message.id = [k] ∧
    (create_large_data s).length = s.data_size ∧
    parallel_node { s with counter := c } k = parallel_node s k := by
  refine ⟨rfl, rfl, rfl, ?_, rfl⟩
  simpa [create_large_data_eq] using payload_length s.data_size

/-- C3: a run in sequential mode with `expand = N` terminates with exactly
`N + 1` messages, final counter `N`, and message ids `0, 1, ..., N` in that
order. -/
theorem C3_sequential_run (d ds n : Nat) :
    ∃ s, run { modeRaw := "sequential", delay := d, data_size := ds, expand := n } = .ok s ∧
      s.messages.length = n + 1 ∧
      s.counter = n ∧
      s.messages.map Message.id = List.range (n + 1) := by
  refine ⟨_, run_sequential d ds n, by simp, rfl, ?_⟩
  simp only [List.map_cons, seqMessage, List.map_map]
  rw [show (Message.id ∘ fun k => seqMessage ds k) = fun k => k from rfl]
  rw [List.map_id', List.range_eq_range', List.range'_succ]

/-- C4 counterexample: the empty raw mode string is not one of the three
recognized values, yet the entry node succeeds (falling back to single mode)
instead of failing with `InvalidModeError`. -/
theorem C4_entry_counterexample :
    BenchmarkMode.ofString "" = none ∧
    "" ≠ "single" ∧ "" ≠ "sequential" ∧ "" ≠ "parallel" ∧
    entryStep { modeRaw := "", delay := 0, data_size := 0, expand := 0 }
      = .ok { counter := 0, delay := 0, data_size := 0, expand := 0, mode := .SINGLE_NODE,
              messages := [{ id := 0, content := "Hello from entry node!" }] } := by
  refine ⟨rfl, by decide, by decide, by decide, rfl⟩

/-- C4 (amended): the entry node fails with `InvalidModeError` iff the raw
mode is non-empty (truthy) and unrecognized; an empty raw mode falls back to
single mode.  On success it resets the counter to 0, emits exactly one
message with id 0, and the resolved mode is the one matching the raw string
(single mode when the raw string is empty). -/
theorem C4_entry_amended (i : Input) :
    ((∃ e, entryStep i = .error e) ↔
        i.modeRaw ≠ "" ∧ BenchmarkMode.ofString i.modeRaw = none) ∧
    (∀ s, entryStep i = .ok s → s.counter = 0 ∧
        s.messages = [{ id := 0, content := "Hello from entry node!" }] ∧
        s.messages.map Message.id = [0] ∧
        ((i.modeRaw = "" ∧ s.mode = .SINGLE_NODE) ∨
          BenchmarkMode.ofString i.modeRaw = some s.mode)) := by
  unfold entryStep resolveMode
  by_cases h0 : i.modeRaw = ""
  · rw [if_pos h0]
    refine ⟨by simp [h0], ?_⟩
    intro s hs
    injection hs with hs
    subst hs
    exact ⟨rfl, rfl, rfl, Or.inl ⟨h0, rfl⟩⟩
  · rw [if_neg h0]
    cases hof : BenchmarkMode.ofString i.modeRaw with
    | none =>
        refine ⟨⟨fun _ => ⟨h0, rfl⟩, fun _ => ⟨.InvalidModeError, rfl⟩⟩, ?_⟩
        intro s hs
        exact absurd hs (by simp)
    | some m =>
        refine ⟨by simp [hof], ?_⟩
        intro s hs
        injection hs with hs
        subst hs
        exact ⟨rfl, rfl, rfl, Or.inr (by simpa using hof)⟩

/-- Witness for C4 (amended) at the concrete raw mode `"sequential"`. -/
theorem C4_entry_amended_witness :
    ({ counter := 0, delay := 1, data_size := 2, expand := 3,
       mode := .SEQUENTIAL_NODES,
       messages := [{ id := 0, content := "Hello from entry node!" }] } : State).counter = 0 ∧
    ({ counter := 0, delay := 1, data_size := 2, expand := 3,
       mode := .SEQUENTIAL_NODES,
       messages := [{ id := 0, content := "Hello from entry node!" }] } : State).messages
      = [{ id := 0, content := "Hello from entry node!" }] ∧
    (({ counter := 0, delay := 1, data_size := 2, expand := 3,
        mode := .SEQUENTIAL_NODES,
        messages := [{ id := 0, content := "Hello from entry node!" }] } : State).messages.map
          Message.id = [0]) ∧
    ((("sequential" : String) = "" ∧
        ({ counter := 0, delay := 1, data_size := 2, expand := 3,
           mode := .SEQUENTIAL_NODES,
           messages := [{ id := 0, content := "Hello from entry node!" }] } : State).mode
          = .SINGLE_NODE) ∨
      BenchmarkMode.ofString "sequential"
        = some ({ counter := 0, delay := 1, data_size := 2, expand := 3,
                  mode := .SEQUENTIAL_NODES,
                  messages := [{ id := 0, content := "Hello from entry node!" }] } : State).mode) :=
  (C4_entry_amended { modeRaw := "sequential", delay := 1, data_size := 2, expand := 3 }).2 _ rfl

/-- C5: every run preserves the state invariants: the entry node resets the
counter to 0 and sets the mode, and along the whole super-step trace the
counter never decreases, the mode never changes, and the message log only
grows by appending. -/
theorem C5_invariants (i : Input) (s₀ : State) (h : entryStep i = .ok s₀) :
    s₀.counter = 0 ∧ List.Chain' StepOk (engineTrace s₀) :=
  ⟨(entryStep_ok h).1, engineTrace_chain (s₀.expand - s₀.counter) s₀ rfl⟩

/-- Witness for C5 at the concrete input `mode = "single"`. -/
theorem C5_invariants_witness :
    ({ counter := 0, delay := 0, data_size := 0, expand := 0, mode := .SINGLE_NODE,
       messages := [{ id := 0, content := "Hello from entry node!" }] } : State).counter = 0 ∧
    List.Chain' StepOk (engineTrace
      { counter := 0, delay := 0, data_size := 0, expand := 0, mode := .SINGLE_NODE,
        messages := [{ id := 0, content := "Hello from entry node!" }] }) :=
  C5_invariants { modeRaw := "single", delay := 0, data_size := 0, expand := 0 } _ rfl

/-- C6: in parallel mode the router produces a branch set of exactly `expand`
directives with overlay ids `1..expand`, the fan-out happens exactly once
(the trace is the entry snapshot followed by the single parallel super-step),
and parallel units carry no router. -/
theorem C6_router_fanout (s : State) (h : s.mode = .PARALLEL_NODES) :
    should_continue s = .branchSet (List.range' 1 s.expand) ∧
    (List.range' 1 s.expand).length = s.expand ∧
    (∀ k, k ∈ List.range' 1 s.expand ↔ 1 ≤ k ∧ k ≤ s.expand) ∧
    engineTrace s = [s, parallelStep s (List.range' 1 s.expand)] := by
  refine ⟨should_continue_parallel h, List.length_range' 1 1 s.expand, ?_, ?_⟩
  · intro k
    rw [List.mem_range'_1]
    omega
  · exact engineTrace_branch (should_continue_parallel h)

/-- Witness for C6 at a concrete parallel-mode state with `expand = 2`. -/
theorem C6_router_fanout_witness :
    should_continue
        { counter := 0, delay := 0, data_size := 0, expand := 2, mode := .PARALLEL_NODES,
          messages := [] }
      = .branchSet (List.range' 1 2) ∧
    (List.range' 1 2).length = 2 ∧
    (∀ k, k ∈ List.range' 1 2 ↔ 1 ≤ k ∧ k ≤ 2) ∧
    engineTrace
        { counter := 0, delay := 0, data_size := 0, expand := 2, mode := .PARALLEL_NODES,
          messages := [] }
      = [{ counter := 0, delay := 0, data_size := 0, expand := 2, mode := .PARALLEL_NODES,
           messages := [] },
         parallelStep
           { counter := 0, delay := 0, data_size := 0, expand := 2, mode := .PARALLEL_NODES,
             messages := [] } (List.range' 1 2)] :=
  C6_router_fanout
    { counter := 0, delay := 0, data_size := 0, expand := 2, mode := .PARALLEL_NODES,
      messages := [] } rfl

/-- C7: with `expand = 0`, a sequential run is terminal immediately after the
entry node with exactly one message, and a parallel run dispatches zero
branch directives and ends with exactly one message. -/
theorem C7_expand_zero (d ds : Nat) :
    (∃ s, run { modeRaw := "sequential", delay := d, data_size := ds, expand := 0 } = .ok s ∧
       s.messages.length = 1 ∧ engineTrace s = [s]) ∧
    (∃ s, run { modeRaw := "parallel", delay := d, data_size := ds, expand := 0 } = .ok s ∧
       s.messages.length = 1 ∧ should_continue s = .branchSet []) := by
  constructor
  · refine ⟨_, run_sequential d ds 0, by simp, ?_⟩
    exact engineTrace_terminal (should_continue_seq_ge rfl (by simp))
  · refine ⟨_, run_parallel d ds 0, by simp, ?_⟩
    exact should_continue_parallel rfl

/-- C8: the payload builder returns exactly `data_size` filler characters:
length always equals `data_size`, size 0 yields the empty payload, size 5
yields five `a` characters, and the handler content embeds the payload. -/
theorem C8_payload_roundtrip (s : State) (k : Nat) :
    (create_large_data s).length = s.data_size ∧
    create_large_data { s with data_size := 0 } = "" ∧
    create_large_data { s with data_size := 5 } = "aaaaa" ∧
    (parallel_node s k).map Message.content
      = ["Hello from parallel node " ++ toString k ++ "! Data: " ++ create_large_data s] := by
  refine ⟨?_, rfl, ?_, rfl⟩
  · simpa [create_large_data_eq] using payload_length s.data_size
  · rfl

/-- C9: two runs with identical inputs, differing only in the completion
order of the parallel branches, produce identical message logs. -/
theorem C9_determinism (i : Input) (ord₁ ord₂ : List Nat)
    (h₁ : ord₁.Perm (List.range' 1 i.expand)) (h₂ : ord₂.Perm (List.range' 1 i.expand)) :
    (entryStep i).map (fun s => (engineLoopSched s ord₁).messages)
      = (entryStep i).map (fun s => (engineLoopSched s ord₂).messages) := by
  cases he : entryStep i with
  | error e => rfl
  | ok s =>
      obtain ⟨_, _, _, hexp, _⟩ := entryStep_ok he
      simp only [Except.map]
      rw [engineLoopSched_eq (s.expand - s.counter) s ord₁ (by rwa [hexp]) rfl]
      rw [engineLoopSched_eq (s.expand - s.counter) s ord₂ (by rwa [hexp]) rfl]

/-- Witness for C9: a parallel run with `expand = 2` whose branches complete
in the orders `[2, 1]` and `[1, 2]` yields the same message log. -/
theorem C9_determinism_witness :
    (entryStep { modeRaw := "parallel", delay := 0, data_size := 1, expand := 2 }).map
        (fun s => (engineLoopSched s [2, 1]).messages)
      = (entryStep { modeRaw := "parallel", delay := 0, data_size := 1, expand := 2 }).map
        (fun s => (engineLoopSched s [1, 2]).messages) :=
  C9_determinism { modeRaw := "parallel", delay := 0, data_size := 1, expand := 2 }
    [2, 1] [1, 2] (by decide) (by decide)

/-- C10: the dataclass field defaults: counter 0, delay 0, data size 1000,
expand 50, single mode, empty message list. -/
theorem C10_defaults :
    State.mkDefault.counter = 0 ∧ State.mkDefault.delay = 0 ∧
    State.mkDefault.data_size = 1000 ∧ State.mkDefault.expand = 50 ∧
    State.mkDefault.mode = .SINGLE_NODE ∧ State.mkDefault.messages = [] :=
  ⟨rfl, rfl, rfl, rfl, rfl, rfl⟩

end ReactAgent
